import Mathlib

/-!
The tor-libp2p node: construction and bootstrap.

A shallow embedding of `main.go`.  Calls into libraries outside the
repository (go-multiaddr, go-libp2p, the Tor transport, crypto/rand, the
signal channel) are gathered in a `World` record that supplies their
results; every function of the program that performs such calls also returns
the sequence of observable events it produced, in program order.

Go conventions kept by the embedding:
* a slice is `Option (List α)`, `none` being the `nil` slice;
* a Go `error` result is `Option Error`, `none` being `nil`;
* a function returning `(T, error)` returns a pair.
-/

namespace TorLibp2p

/-! ## Data model -/

/-- A Go `error`, represented by its message. -/
abbrev Error := String

/-- A Go slice: `none` is the `nil` slice, `some l` a non-nil slice. -/
abbrev Slice (α : Type) := Option (List α)

/-- Elements of a slice, as ranged over by `for _, x := range s`. -/
def Slice.elems {α : Type} : Slice α → List α
  | none => []
  | some l => l

/-- Go `len(s)`. -/
def len {α : Type} (s : Slice α) : Nat := s.elems.length

/-- Go `append(s, x)`. -/
def append {α : Type} (s : Slice α) (x : α) : Slice α := some (s.elems ++ [x])

/-- The type `ma.Multiaddr`, represented by its textual form. -/
structure Multiaddr where
  text : String
deriving DecidableEq, Repr

/-- Method `Multiaddr.String()`. -/
def Multiaddr.String (m : Multiaddr) : String := m.text

/-- The type `peer.ID` (a Go string type), held in the form `%s` prints. -/
abbrev PeerID := String

/-- The type `peer.AddrInfo`. -/
structure AddrInfo where
  ID : PeerID
  Addrs : Slice Multiaddr
deriving DecidableEq, Repr

/-- The zero value `peer.AddrInfo{}`. -/
def AddrInfo.zero : AddrInfo := { ID := "", Addrs := none }

/-- The type `context.Context`; the program only builds `context.Background()`. -/
inductive Ctx where
  | Background
deriving DecidableEq, Repr

/-- Options of `tor.NewBuilder`. -/
inductive TorConfig where
  | EnableEmbeded
deriving DecidableEq, Repr

/-- Value returned by `tor.NewBuilder`, an opaque handle. -/
structure Builder where
  handle : Nat
deriving DecidableEq, Repr

/-- The `libp2p.Option` values the program builds. -/
inductive Libp2pOption where
  | ListenAddrs (addrs : List Multiaddr)
  | Transport (b : Builder)
deriving DecidableEq, Repr

/-- The interface `host.Host`, restricted to the methods the program calls.
`Connect n ctx pi` is the result of the call `Connect(ctx, pi)` when `n`
calls of `Connect` were made on this host before it, so that separate
attempts may have separate outcomes. -/
structure Host where
  ID : PeerID
  Addrs : List Multiaddr
  Connect : Nat → Ctx → AddrInfo → Option Error

/-- The struct `thost`. -/
structure thost where
  ctx : Ctx
  h : Host
  bootnodes : Slice AddrInfo

/-- Observable actions of the program, in the order they are performed. -/
inductive Event where
  | Infof (msg : String)
  | Println (msg : String)
  | PrintAddresses (addrs : Slice String)
  | NewBuilder (opts : List TorConfig)
  | New (opts : List Libp2pOption)
  | Connect (ctx : Ctx) (pi : AddrInfo) (err : Option Error)
  | SignalNotify
  | SignalStop
deriving DecidableEq, Repr

/-- Results of the calls that leave the repository. -/
structure World where
  /-- The function `ma.NewMultiaddr`. -/
  NewMultiaddr : String → Except Error Multiaddr
  /-- The function `peer.AddrInfoFromP2pAddr`. -/
  AddrInfoFromP2pAddr : Multiaddr → Except Error AddrInfo
  /-- The call `rand.Int(rand.Reader, max)`, given `max`. -/
  randInt : Nat → Except Error Nat
  /-- The function `tor.NewBuilder`. -/
  NewBuilder : List TorConfig → Except Error Builder
  /-- The function `libp2p.New`. -/
  New : List Libp2pOption → Except Error Host
  /-- Whether SIGINT or SIGTERM is ever delivered to the process. -/
  interrupt : Bool

/-- The parsed command line (`*cli.Context`): the two flags of the app. -/
structure CliContext where
  noTor : Bool
  bootnodes : String

/-! ## Integer conversions -/

/-- Method `(*big.Int).Int64()` on a non-negative value: the low 64 bits,
read as a signed integer. -/
def Int64 (x : Nat) : Int :=
  let m : Nat := x % 2 ^ 64
  if m < 2 ^ 63 then (m : Int) else (m : Int) - 2 ^ 64

/-- Go conversion `uint16(x)` of an `int64`: reduction modulo `2^16`. -/
def uint16 (x : Int) : Nat := (x % 2 ^ 16).toNat

/-! ## Address parsing -/

/-- Function `stringToAddrInfo`: converts a single string peer id to AddrInfo. -/
def stringToAddrInfo (w : World) (s : String) : AddrInfo × Option Error :=
  match w.NewMultiaddr s with
  | .error err => (AddrInfo.zero, some err)
  | .ok maddr =>
    match w.AddrInfoFromP2pAddr maddr with
    | .error err => (AddrInfo.zero, some err)
    | .ok p => (p, none)

/-- Loop of `stringsToAddrInfos` from index `i` on, `pinfos` being the slice
allocated before the loop. -/
def stringsToAddrInfosLoop (w : World) :
    List String → Nat → List AddrInfo → Slice AddrInfo × Option Error
  | [], _, pinfos => (some pinfos, none)
  | p :: rest, i, pinfos =>
    match stringToAddrInfo w p with
    | (_, some err) => (none, some err)
    | (p, none) => stringsToAddrInfosLoop w rest (i + 1) (pinfos.set i p)

/-- Function `stringsToAddrInfos`: converts a string of peer ids to AddrInfo. -/
def stringsToAddrInfos (w : World) (peers : Slice String) :
    Slice AddrInfo × Option Error :=
  let pinfos := List.replicate (len peers) AddrInfo.zero
  stringsToAddrInfosLoop w peers.elems 0 pinfos

/-- Splitting of a character sequence at every occurrence of `sep`. -/
def splitChars (sep : Char) : List Char → List (List Char)
  | [] => [[]]
  | c :: cs =>
    if c = sep then [] :: splitChars sep cs
    else
      match splitChars sep cs with
      | [] => [[c]]
      | w :: ws => (c :: w) :: ws

/-- Go `strings.Split(s, sep)` for a separator of one character. -/
def stringsSplit (s : String) (sep : Char) : Slice String :=
  some ((splitChars sep s.data).map String.mk)

/-- Lines 56-63 of `runNode`: the bootnodes handed to `newHost`, or the
error `runNode` returns. -/
def parseBootnodes (w : World) (c : CliContext) : Slice AddrInfo × Option Error :=
  if c.bootnodes ≠ "" then
    let bootnodeStrs := stringsSplit c.bootnodes ','
    match stringsToAddrInfos w bootnodeStrs with
    | (_, some err) => (none, some err)
    | (bootnodes, none) => (bootnodes, none)
  else (none, none)

/-! ## Host construction -/

/-- The text `fmt.Sprintf("/ip4/0.0.0.0/tcp/%d", port)`. -/
def listenAddrString (port : Nat) : String :=
  "/ip4/0.0.0.0/tcp/" ++ toString port

/-- Function `newHost`. -/
def newHost (w : World) (noTor : Bool) (bootnodes : Slice AddrInfo) (port : Nat) :
    (Option thost × Option Error) × List Event :=
  match w.NewMultiaddr (listenAddrString port) with
  | .error err => ((none, some err), [])
  | .ok addr =>
    let opts := [Libp2pOption.ListenAddrs [addr]]
    if noTor then
      match w.New opts with
      | .error err => ((none, some err), [Event.New opts])
      | .ok h =>
        ((some { ctx := Ctx.Background, h := h, bootnodes := bootnodes }, none),
          [Event.New opts])
    else
      match w.NewBuilder [TorConfig.EnableEmbeded] with
      | .error err => ((none, some err), [Event.NewBuilder [TorConfig.EnableEmbeded]])
      | .ok builder =>
        match w.New [Libp2pOption.Transport builder] with
        | .error err =>
          ((none, some err),
            [Event.NewBuilder [TorConfig.EnableEmbeded],
             Event.New [Libp2pOption.Transport builder]])
        | .ok h =>
          ((some { ctx := Ctx.Background, h := h, bootnodes := bootnodes }, none),
            [Event.NewBuilder [TorConfig.EnableEmbeded],
             Event.New [Libp2pOption.Transport builder]])

/-! ## Bootstrap -/

/-- Loop of `thost.bootstrap`: `n` is the number of `Connect` calls made so
far, `failed` the counter, `tr` the events so far. -/
def bootstrapLoop (h : thost) :
    List AddrInfo → Nat → Nat → List Event → Nat × List Event
  | [], _, failed, tr => (failed, tr)
  | addrInfo :: rest, n, failed, tr =>
    let tr := tr ++ [Event.Infof ("bootstrapping to peer: peer=" ++ addrInfo.ID)]
    let err := h.h.Connect n h.ctx addrInfo
    let tr := tr ++ [Event.Connect h.ctx addrInfo err]
    match err with
    | some e =>
      bootstrapLoop h rest (n + 1) (failed + 1)
        (tr ++ [Event.Infof ("failed to bootstrap to peer: err=" ++ e)])
    | none => bootstrapLoop h rest (n + 1) failed tr

/-- Method `thost.bootstrap`. -/
def thost.bootstrap (h : thost) : Option Error × List Event :=
  let r := bootstrapLoop h h.bootnodes.elems 0 0 []
  if r.1 = len h.bootnodes ∧ len h.bootnodes ≠ 0 then
    (some "failed to bootstrap", r.2)
  else (none, r.2)

/-! ## Advertised addresses -/

/-- The text `fmt.Sprintf("%s/p2p/%s", addr, id)`. -/
def p2pAddrString (addr : Multiaddr) (id : PeerID) : String :=
  addr.String ++ "/p2p/" ++ id

/-- Loop of `thost.multiaddrs`, `multiaddrs` being the named result. -/
def multiaddrsLoop (w : World) (h : thost) :
    List Multiaddr → Slice Multiaddr → Slice Multiaddr
  | [], multiaddrs => multiaddrs
  | addr :: rest, multiaddrs =>
    match w.NewMultiaddr (p2pAddrString addr h.h.ID) with
    | .error _ => multiaddrsLoop w h rest multiaddrs
    | .ok multiaddr => multiaddrsLoop w h rest (append multiaddrs multiaddr)

/-- Method `thost.multiaddrs`: returns the multiaddresses of the host. -/
def thost.multiaddrs (w : World) (h : thost) : Slice Multiaddr :=
  multiaddrsLoop w h h.h.Addrs none

/-- Loop of `thost.Addresses`. -/
def AddressesLoop : List Multiaddr → Slice String → Slice String
  | [], addrs => addrs
  | ma :: rest, addrs => AddressesLoop rest (append addrs ma.String)

/-- Method `thost.Addresses`. -/
def thost.Addresses (w : World) (h : thost) : Slice String :=
  AddressesLoop (h.multiaddrs w).elems none

/-! ## The run procedure -/

/-- How a call of `runNode` ends. -/
inductive Outcome where
  /-- The function returned `err`. -/
  | returned (err : Option Error)
  /-- The function blocks in its `select` for ever. -/
  | blocked
  /-- A run-time panic inside the function. -/
  | panicked (msg : String)
deriving DecidableEq, Repr

/-- Function `runNode`. -/
def runNode (w : World) (c : CliContext) : Outcome × List Event :=
  match parseBootnodes w c with
  | (_, some err) => (Outcome.returned (some err), [])
  | (bootnodes, none) =>
    match w.randInt (1 <<< 16) with
    | .error err => (Outcome.returned (some err), [])
    | .ok port =>
      match newHost w c.noTor bootnodes (uint16 (Int64 port)) with
      | ((_, some err), tr) => (Outcome.returned (some err), tr)
      | ((none, none), tr) => (Outcome.panicked "nil pointer dereference", tr)
      | ((some h, none), tr) =>
        let tr := tr ++ [Event.PrintAddresses (h.Addresses w)]
        match h.bootstrap with
        | (some err, tb) => (Outcome.returned (some err), tr ++ tb)
        | (none, tb) =>
          let tr := tr ++ tb ++ [Event.SignalNotify]
          if w.interrupt then
            (Outcome.returned none,
              tr ++ [Event.Println "signal interrupt, shutting down...", Event.SignalStop])
          else (Outcome.blocked, tr)

/-- How the process ends. -/
inductive ProcessEnd where
  | panicked (err : Error)
  | exited
  | blocked
deriving DecidableEq, Repr

/-- Function `main`: `app.Run` invokes the action `runNode` on the parsed
command line and hands back its error. -/
def main (w : World) (c : CliContext) : ProcessEnd × List Event :=
  match runNode w c with
  | (Outcome.returned (some err), tr) => (ProcessEnd.panicked err, tr)
  | (Outcome.returned none, tr) => (ProcessEnd.exited, tr)
  | (Outcome.blocked, tr) => (ProcessEnd.blocked, tr)
  | (Outcome.panicked msg, tr) => (ProcessEnd.panicked msg, tr)

/-! ## Sample hosts and worlds -/

/-- A bootnode. -/
def peerA : AddrInfo := { ID := "QmPeerA", Addrs := some [⟨"/ip4/10.0.0.1/tcp/4001"⟩] }

/-- Another bootnode. -/
def peerB : AddrInfo := { ID := "QmPeerB", Addrs := some [⟨"/ip4/10.0.0.2/tcp/4001"⟩] }

/-- A host whose first `Connect` call fails and whose later calls succeed. -/
def flakyHost : Host where
  ID := "QmSelf"
  Addrs := [⟨"/ip4/127.0.0.1/tcp/4001"⟩, ⟨"/ip4/192.168.1.5/tcp/4001"⟩]
  Connect := fun n _ _ => if n = 0 then some "dial backoff" else none

/-- A host all of whose `Connect` calls fail. -/
def deafHost : Host where
  ID := "QmSelf"
  Addrs := [⟨"/ip4/127.0.0.1/tcp/4001"⟩]
  Connect := fun _ _ _ => some "dial failed"

/-- A multiaddr parser that rejects a text not starting with a slash and a
text ending in a `p2p` component without value, and accepts the rest
unchanged. -/
def sampleNewMultiaddr (s : String) : Except Error Multiaddr :=
  if s.data.head? ≠ some '/' then .error "must begin with /"
  else if "/p2p/".data.isSuffixOf s.data then .error "unexpected end of multiaddr"
  else .ok ⟨s⟩

/-- A world around the host `h`: the random source yields `r`, the Tor
builder and the stack constructor succeed, an interrupt is delivered. -/
def sampleWorld (h : Host) (r : Nat) : World where
  NewMultiaddr := sampleNewMultiaddr
  AddrInfoFromP2pAddr := fun m => .ok { ID := "QmPeer", Addrs := some [m] }
  randInt := fun _ => .ok r
  NewBuilder := fun _ => .ok ⟨0⟩
  New := fun _ => .ok h
  interrupt := true

/-- The sample world with a Tor builder that cannot initialise. -/
def torlessWorld (h : Host) (r : Nat) : World :=
  { sampleWorld h r with NewBuilder := fun _ => .error "tor: cannot start" }

/-- A `thost` over the flaky host with two bootnodes. -/
def flakyThost : thost :=
  { ctx := Ctx.Background, h := flakyHost, bootnodes := some [peerA, peerB] }

/-- A `thost` over the deaf host with one bootnode. -/
def deafThost : thost :=
  { ctx := Ctx.Background, h := deafHost, bootnodes := some [peerA] }

/-! ## Derived notions used in the statements -/

/-- Outcomes of the successive `Connect` calls of the bootstrap loop on the
peers `l`, the first of them being call number `n` on the host. -/
def connectOutcomes (h : thost) : List AddrInfo → Nat → List (Option Error)
  | [], _ => []
  | addrInfo :: rest, n => h.h.Connect n h.ctx addrInfo :: connectOutcomes h rest (n + 1)

/-- Peers of the `Connect` calls recorded in a trace, in order. -/
def attempted : List Event → List AddrInfo
  | [] => []
  | Event.Connect _ pi _ :: rest => pi :: attempted rest
  | _ :: rest => attempted rest

/-- The contract of go-multiaddr on what a host advertises: for every bound
address of `h`, the text made of the address, "/p2p/" and the identity of `h`
is a valid multiaddr text, which parses and prints back unchanged. -/
def composesCleanly (w : World) (h : Host) : Bool :=
  h.Addrs.all (fun a =>
    match w.NewMultiaddr (p2pAddrString a h.ID) with
    | .ok m => decide (m.String = p2pAddrString a h.ID)
    | .error _ => false)

/-- Whether a trace shows the process waiting for its interrupt signal. -/
def reachedRunning (tr : List Event) : Bool := decide (Event.SignalNotify ∈ tr)

/-- Whether some `libp2p.New` call of a trace was given a listen address. -/
def listensOnTcp : List Event → Bool
  | [] => false
  | Event.New opts :: rest =>
    opts.any (fun o => match o with
      | Libp2pOption.ListenAddrs _ => true
      | Libp2pOption.Transport _ => false) || listensOnTcp rest
  | _ :: rest => listensOnTcp rest

/-! ## Bootstrap: verdict and attempts -/

theorem attempted_append (a b : List Event) :
    attempted (a ++ b) = attempted a ++ attempted b := by
  induction a with
  | nil => rfl
  | cons e rest ih => cases e <;> simp [attempted, ih]

theorem bootstrapLoop_failed (h : thost) (l : List AddrInfo) (n failed : Nat)
    (tr : List Event) :
    (bootstrapLoop h l n failed tr).1
      = failed + (connectOutcomes h l n).countP (fun o => o.isSome) := by
  induction l generalizing n failed tr with
  | nil => simp [bootstrapLoop, connectOutcomes]
  | cons a rest ih =>
    simp only [bootstrapLoop, connectOutcomes]
    cases hc : h.h.Connect n h.ctx a with
    | none => simp [ih]
    | some e => simp [ih]; omega

theorem bootstrapLoop_attempted (h : thost) (l : List AddrInfo) (n failed : Nat)
    (tr : List Event) :
    attempted (bootstrapLoop h l n failed tr).2 = attempted tr ++ l := by
  induction l generalizing n failed tr with
  | nil => simp [bootstrapLoop]
  | cons a rest ih =>
    simp only [bootstrapLoop]
    cases hc : h.h.Connect n h.ctx a with
    | none => simp [ih, attempted_append, attempted]
    | some e => simp [ih, attempted_append, attempted]

theorem connectOutcomes_length (h : thost) (l : List AddrInfo) (n : Nat) :
    (connectOutcomes h l n).length = l.length := by
  induction l generalizing n with
  | nil => rfl
  | cons a rest ih => simp [connectOutcomes, ih]

theorem connectOutcomes_all (h : thost) (l : List AddrInfo) (n : Nat) :
    (∀ o ∈ connectOutcomes h l n, o.isSome = true)
      ↔ ∀ i (hi : i < l.length), h.h.Connect (n + i) h.ctx (l.get ⟨i, hi⟩) ≠ none := by
  induction l generalizing n with
  | nil => simp [connectOutcomes]
  | cons a rest ih =>
    simp only [connectOutcomes, List.mem_cons, forall_eq_or_imp, ih]
    constructor
    · rintro ⟨h0, hr⟩ i hi
      cases i with
      | zero => simpa [Option.isSome_iff_ne_none] using h0
      | succ j =>
        have := hr j (by simpa using hi)
        simpa [Nat.add_assoc, Nat.add_comm 1 j] using this
    · intro hall
      refine ⟨?_, ?_⟩
      · have := hall 0 (by simp)
        simpa [Option.isSome_iff_ne_none] using this
      · intro i hi
        have := hall (i + 1) (by simpa using hi)
        simpa [Nat.add_assoc, Nat.add_comm 1 i] using this

/-- C1: `thost.bootstrap` returns an error exactly when the bootnode list is
non-empty and every one of its `Connect` attempts failed (the `i`-th attempt
being the `i`-th call of `Connect`, on the `i`-th bootnode); the error is then
"failed to bootstrap".  Hence it returns nil for the empty list and whenever
some attempt succeeds. -/
theorem bootstrap_error_iff (h : thost) :
    (h.bootstrap.1 ≠ none ↔
      (len h.bootnodes ≠ 0 ∧
        ∀ i (hi : i < h.bootnodes.elems.length),
          h.h.Connect i h.ctx (h.bootnodes.elems.get ⟨i, hi⟩) ≠ none))
    ∧ (h.bootstrap.1 = none ∨ h.bootstrap.1 = some "failed to bootstrap")
    ∧ (len h.bootnodes = 0 → h.bootstrap.1 = none)
    ∧ (∀ i (hi : i < h.bootnodes.elems.length),
        h.h.Connect i h.ctx (h.bootnodes.elems.get ⟨i, hi⟩) = none →
        h.bootstrap.1 = none) := by
  have key : (h.bootstrap.1 ≠ none ↔
      (len h.bootnodes ≠ 0 ∧
        ∀ i (hi : i < h.bootnodes.elems.length),
          h.h.Connect i h.ctx (h.bootnodes.elems.get ⟨i, hi⟩) ≠ none)) := by
    have hall := connectOutcomes_all h h.bootnodes.elems 0
    simp only [Nat.zero_add] at hall
    rw [← hall, ← List.countP_eq_length, connectOutcomes_length]
    unfold thost.bootstrap
    simp only [bootstrapLoop_failed, Nat.zero_add, len]
    split <;> rename_i hc
    · simp [hc.1, hc.2]
    · simp only [ne_eq, not_true_eq_false, false_iff]
      intro hh; exact hc ⟨hh.2, hh.1⟩
  refine ⟨key, ?_, ?_, ?_⟩
  · simp only [thost.bootstrap]; split <;> simp
  · intro h0
    by_contra hne
    exact (key.mp hne).1 h0
  · intro i hi hnone
    by_contra hne
    exact (key.mp hne).2 i hi hnone

theorem bootstrap_attempted (h : thost) : attempted h.bootstrap.2 = h.bootnodes.elems := by
  simp only [thost.bootstrap]
  split <;> simp [bootstrapLoop_attempted, attempted]

/-- C2: the `Connect` calls issued by `thost.bootstrap` are, in order, exactly
the bootnodes of the host: one attempt per bootnode whatever the outcomes of
the earlier ones, and none for the empty list. -/
theorem bootstrap_attempts_all (h : thost) :
    attempted h.bootstrap.2 = h.bootnodes.elems
    ∧ (attempted h.bootstrap.2).length = len h.bootnodes := by
  have := bootstrap_attempted h
  exact ⟨this, by rw [this]; rfl⟩

/-! ## Batch parsing of peer strings -/

theorem first_rejected (w : World) (l : List String) :
    (∀ s ∈ l, (stringToAddrInfo w s).2 = none) ∨
    ∃ pre s post e, l = pre ++ s :: post ∧
      (∀ t ∈ pre, (stringToAddrInfo w t).2 = none) ∧ (stringToAddrInfo w s).2 = some e := by
  induction l with
  | nil => left; simp
  | cons a rest ih =>
    cases ha : (stringToAddrInfo w a).2 with
    | some e => right; exact ⟨[], a, rest, e, rfl, by simp, ha⟩
    | none =>
      rcases ih with hall | ⟨pre, s, post, e, hl, hpre, hs⟩
      · left
        intro s hs
        rcases List.mem_cons.mp hs with rfl | hmem
        · exact ha
        · exact hall s hmem
      · right
        refine ⟨a :: pre, s, post, e, by simp [hl], ?_, hs⟩
        intro t ht
        rcases List.mem_cons.mp ht with rfl | hmem
        · exact ha
        · exact hpre t hmem

theorem stringsToAddrInfosLoop_ok (w : World) (l : List String) (filled : List AddrInfo)
    (hall : ∀ s ∈ l, (stringToAddrInfo w s).2 = none) :
    stringsToAddrInfosLoop w l filled.length
        (filled ++ List.replicate l.length AddrInfo.zero)
      = (some (filled ++ l.map (fun s => (stringToAddrInfo w s).1)), none) := by
  induction l generalizing filled with
  | nil => simp [stringsToAddrInfosLoop]
  | cons a rest ih =>
    have ha := hall a (by simp)
    rcases hp : stringToAddrInfo w a with ⟨v, _ | e⟩
    · have hrest : ∀ s ∈ rest, (stringToAddrInfo w s).2 = none :=
        fun s hs => hall s (List.mem_cons_of_mem _ hs)
      have := ih (filled ++ [v]) hrest
      simp only [List.length_append, List.length_singleton, List.append_assoc,
        List.singleton_append] at this
      simp [stringsToAddrInfosLoop, hp, List.replicate_succ, this]
    · simp [hp] at ha

theorem stringsToAddrInfosLoop_err (w : World) (pre : List String) (s : String)
    (post : List String) (e : Error) (i : Nat) (pinfos : List AddrInfo)
    (hpre : ∀ t ∈ pre, (stringToAddrInfo w t).2 = none)
    (hs : (stringToAddrInfo w s).2 = some e) :
    stringsToAddrInfosLoop w (pre ++ s :: post) i pinfos = (none, some e) := by
  induction pre generalizing i pinfos with
  | nil =>
    rcases hp : stringToAddrInfo w s with ⟨v, _ | e2⟩
    · simp [hp] at hs
    · simp only [hp, Option.some.injEq] at hs
      simp [stringsToAddrInfosLoop, hp, hs]
  | cons a rest ih =>
    have ha := hpre a (by simp)
    rcases hp : stringToAddrInfo w a with ⟨v, _ | e2⟩
    · have hrest : ∀ t ∈ rest, (stringToAddrInfo w t).2 = none :=
        fun t ht => hpre t (List.mem_cons_of_mem _ ht)
      simp [stringsToAddrInfosLoop, hp, ih _ _ hrest]
    · simp [hp] at ha

/-- C3: if some entry of the list is rejected by `stringToAddrInfo`, then
`stringsToAddrInfos` returns the nil slice together with an error (no list of
the entries that did parse); if every entry is accepted it returns no error. -/
theorem stringsToAddrInfos_atomic (w : World) (peers : Slice String) :
    ((∃ s ∈ peers.elems, (stringToAddrInfo w s).2 ≠ none) →
      (stringsToAddrInfos w peers).1 = none ∧ (stringsToAddrInfos w peers).2 ≠ none)
    ∧ ((∀ s ∈ peers.elems, (stringToAddrInfo w s).2 = none) →
      (stringsToAddrInfos w peers).2 = none) := by
  constructor
  · rintro ⟨s, hs, hrej⟩
    rcases first_rejected w peers.elems with hall | ⟨pre, t, post, e, hl, hpre, ht⟩
    · exact absurd (hall s hs) hrej
    · simp [stringsToAddrInfos, hl, stringsToAddrInfosLoop_err w pre t post e _ _ hpre ht]
  · intro hall
    have := stringsToAddrInfosLoop_ok w peers.elems [] hall
    simp only [List.length_nil, List.nil_append] at this
    simp [stringsToAddrInfos, len, this]

/-- C10: when every entry is accepted by `stringToAddrInfo`, the slice
returned by `stringsToAddrInfos` is the list of the results of
`stringToAddrInfo` on the entries, in the order of the input (same length,
`i`-th result from the `i`-th string); when an entry is rejected and all the
entries before it are accepted, the error returned is the error of that
entry. -/
theorem stringsToAddrInfos_map (w : World) (peers : Slice String) :
    ((∀ s ∈ peers.elems, (stringToAddrInfo w s).2 = none) →
      stringsToAddrInfos w peers
        = (some (peers.elems.map (fun s => (stringToAddrInfo w s).1)), none)
      ∧ len (stringsToAddrInfos w peers).1 = len peers
      ∧ ∀ i (hi : i < peers.elems.length),
          (stringsToAddrInfos w peers).1.elems.get? i
            = some (stringToAddrInfo w (peers.elems.get ⟨i, hi⟩)).1)
    ∧ (∀ pre s post e, peers.elems = pre ++ s :: post →
        (∀ t ∈ pre, (stringToAddrInfo w t).2 = none) →
        (stringToAddrInfo w s).2 = some e →
        (stringsToAddrInfos w peers).2 = some e) := by
  constructor
  · intro hall
    have := stringsToAddrInfosLoop_ok w peers.elems [] hall
    simp only [List.length_nil, List.nil_append] at this
    have heq : stringsToAddrInfos w peers
        = (some (peers.elems.map (fun s => (stringToAddrInfo w s).1)), none) := by
      simp [stringsToAddrInfos, len, this]
    refine ⟨heq, ?_, ?_⟩
    · rw [heq]
      show (peers.elems.map (fun s => (stringToAddrInfo w s).1)).length = _
      simp [len]
    · intro i hi
      rw [heq]
      show (peers.elems.map (fun s => (stringToAddrInfo w s).1)).get? i = _
      simp [List.getElem?_eq_getElem hi]
  · intro pre s post e hl hpre hs
    simp [stringsToAddrInfos, hl, stringsToAddrInfosLoop_err w pre s post e _ _ hpre hs]

/-! ## Host construction: options handed to the stack -/

theorem newHost_trace_quiet (w : World) (noTor : Bool) (bs : Slice AddrInfo) (port : Nat) :
    attempted (newHost w noTor bs port).2 = []
    ∧ reachedRunning (newHost w noTor bs port).2 = false := by
  cases hm : w.NewMultiaddr (listenAddrString port) with
  | error e => simp [newHost, hm, attempted, reachedRunning]
  | ok addr =>
    cases noTor with
    | true =>
      cases hn : w.New [Libp2pOption.ListenAddrs [addr]] <;>
        simp [newHost, hm, hn, attempted, reachedRunning]
    | false =>
      cases hb : w.NewBuilder [TorConfig.EnableEmbeded] with
      | error e => simp [newHost, hm, hb, attempted, reachedRunning]
      | ok b =>
        cases hn : w.New [Libp2pOption.Transport b] <;>
          simp [newHost, hm, hb, hn, attempted, reachedRunning]

theorem newHost_keeps_bootnodes (w : World) (noTor : Bool) (bs : Slice AddrInfo)
    (port : Nat) (t : thost) (e : Option Error) (tr : List Event)
    (hres : newHost w noTor bs port = ((some t, e), tr)) : t.bootnodes = bs := by
  unfold newHost at hres
  cases hm : w.NewMultiaddr (listenAddrString port) with
  | error e => simp [hm] at hres
  | ok addr =>
    cases noTor with
    | true =>
      cases hn : w.New [Libp2pOption.ListenAddrs [addr]] with
      | error e => simp [hm, hn] at hres
      | ok h =>
        simp only [hm, hn, if_true, Prod.mk.injEq, Option.some.injEq] at hres
        rw [← hres.1.1]
    | false =>
      cases hb : w.NewBuilder [TorConfig.EnableEmbeded] with
      | error e => simp [hm, hb] at hres
      | ok b =>
        cases hn : w.New [Libp2pOption.Transport b] with
        | error e => simp [hm, hb, hn] at hres
        | ok h =>
          simp only [hm, hb, hn, Bool.false_eq_true, if_false, Prod.mk.injEq,
            Option.some.injEq] at hres
          rw [← hres.1.1]

theorem newHost_direct_trace (w : World) (bs : Slice AddrInfo) (port : Nat)
    (addr : Multiaddr) (hListen : w.NewMultiaddr (listenAddrString port) = .ok addr) :
    (newHost w true bs port).2 = [Event.New [Libp2pOption.ListenAddrs [addr]]] := by
  cases hn : w.New [Libp2pOption.ListenAddrs [addr]] <;> simp [newHost, hListen, hn]

/-- C8 (amended): when the listen text `/ip4/0.0.0.0/tcp/<port>` parses to
`addr`, `newHost` in Direct mode calls the stack constructor once, with the
listen address `addr` as its single option; in Anonymized mode no call of the
stack constructor is given a listen address. -/
theorem newHost_listen_options (w : World) (bs : Slice AddrInfo) (port : Nat)
    (addr : Multiaddr) (hListen : w.NewMultiaddr (listenAddrString port) = .ok addr) :
    listenAddrString port = "/ip4/0.0.0.0/tcp/" ++ toString port
    ∧ (newHost w true bs port).2 = [Event.New [Libp2pOption.ListenAddrs [addr]]]
    ∧ listensOnTcp (newHost w true bs port).2 = true
    ∧ listensOnTcp (newHost w false bs port).2 = false := by
  refine ⟨rfl, ?_, ?_, ?_⟩
  · cases hn : w.New [Libp2pOption.ListenAddrs [addr]] <;> simp [newHost, hListen, hn]
  · cases hn : w.New [Libp2pOption.ListenAddrs [addr]] <;>
      simp [newHost, hListen, hn, listensOnTcp]
  · cases hb : w.NewBuilder [TorConfig.EnableEmbeded] with
    | error e => simp [newHost, hListen, hb, listensOnTcp]
    | ok b =>
      cases hn : w.New [Libp2pOption.Transport b] <;>
        simp [newHost, hListen, hb, hn, listensOnTcp]

/-- C9: in Anonymized mode, for every port, `newHost` never hands a listen
address to the stack constructor: every call of the constructor carries the
Tor transport as its only option, the transport being the builder obtained
with the single option `EnableEmbeded`.  Past the parsing of the listen text
(whose error, if any, is returned before anything is requested), `newHost`
requests the builder first; if the builder fails it returns that error and no
host without calling the constructor; otherwise it calls the constructor once
with the Tor transport alone and returns what the constructor gives: its
error and no host, or the host it built, with the bootnodes. -/
theorem newHost_tor_exclusive (w : World) (bs : Slice AddrInfo) (port : Nat) :
    listensOnTcp (newHost w false bs port).2 = false
    ∧ (∀ opts, Event.New opts ∈ (newHost w false bs port).2 →
        ∃ b, w.NewBuilder [TorConfig.EnableEmbeded] = .ok b
          ∧ opts = [Libp2pOption.Transport b])
    ∧ (∀ cfg, Event.NewBuilder cfg ∈ (newHost w false bs port).2 →
        cfg = [TorConfig.EnableEmbeded])
    ∧ ((∃ err, w.NewMultiaddr (listenAddrString port) = .error err
          ∧ newHost w false bs port = ((none, some err), []))
      ∨ (∃ addr, w.NewMultiaddr (listenAddrString port) = .ok addr
          ∧ (newHost w false bs port).2.head?
              = some (Event.NewBuilder [TorConfig.EnableEmbeded])
          ∧ ((∃ e, w.NewBuilder [TorConfig.EnableEmbeded] = .error e
                ∧ newHost w false bs port
                    = ((none, some e), [Event.NewBuilder [TorConfig.EnableEmbeded]]))
            ∨ (∃ b, w.NewBuilder [TorConfig.EnableEmbeded] = .ok b
                ∧ (newHost w false bs port).2
                    = [Event.NewBuilder [TorConfig.EnableEmbeded],
                       Event.New [Libp2pOption.Transport b]]
                ∧ ((∃ e, w.New [Libp2pOption.Transport b] = .error e
                      ∧ (newHost w false bs port).1 = (none, some e))
                  ∨ (∃ h, w.New [Libp2pOption.Transport b] = .ok h
                      ∧ (newHost w false bs port).1
                          = (some { ctx := Ctx.Background, h := h, bootnodes := bs },
                             none))))))) := by
  cases hm : w.NewMultiaddr (listenAddrString port) with
  | error err =>
    refine ⟨by simp [newHost, hm, listensOnTcp], by simp [newHost, hm],
      by simp [newHost, hm], Or.inl ⟨err, rfl, by simp [newHost, hm]⟩⟩
  | ok addr =>
    cases hb : w.NewBuilder [TorConfig.EnableEmbeded] with
    | error e =>
      refine ⟨by simp [newHost, hm, hb, listensOnTcp], by simp [newHost, hm, hb],
        by simp [newHost, hm, hb],
        Or.inr ⟨addr, rfl, by simp [newHost, hm, hb],
          Or.inl ⟨e, rfl, by simp [newHost, hm, hb]⟩⟩⟩
    | ok b =>
      cases hn : w.New [Libp2pOption.Transport b] with
      | error e =>
        refine ⟨by simp [newHost, hm, hb, hn, listensOnTcp],
          by simp [newHost, hm, hb, hn], by simp [newHost, hm, hb, hn],
          Or.inr ⟨addr, rfl, by simp [newHost, hm, hb, hn],
            Or.inr ⟨b, rfl, by simp [newHost, hm, hb, hn],
              Or.inl ⟨e, hn, by simp [newHost, hm, hb, hn]⟩⟩⟩⟩
      | ok h =>
        refine ⟨by simp [newHost, hm, hb, hn, listensOnTcp],
          by simp [newHost, hm, hb, hn], by simp [newHost, hm, hb, hn],
          Or.inr ⟨addr, rfl, by simp [newHost, hm, hb, hn],
            Or.inr ⟨b, rfl, by simp [newHost, hm, hb, hn],
              Or.inr ⟨h, hn, by simp [newHost, hm, hb, hn]⟩⟩⟩⟩

/-! ## Listen port -/

theorem uint16_Int64_small (r : Nat) (hr : r < 65536) : uint16 (Int64 r) = r := by
  have h1 : Int64 r = (r : Int) := by
    unfold Int64
    have : r % 2 ^ 64 = r := Nat.mod_eq_of_lt (by omega)
    simp only [this]
    rw [if_pos (by omega)]
  rw [h1]; unfold uint16; omega

/-- C7 (amended): when `runNode` gets as far as choosing the port and the
random source returns a value `r` below its bound `1 << 16`, the port
`uint16(port.Int64())` that `runNode` hands to `newHost` is `r` itself, which
lies in `[0, 65536)`: the events of `runNode` begin with those of `newHost` on
port `r`, an error of `newHost` on port `r` is what `runNode` returns, and in
Direct mode the stack is asked to listen on the address of port `r`. -/
theorem listen_port_range (w : World) (c : CliContext) (bs : Slice AddrInfo) (r : Nat)
    (hparse : parseBootnodes w c = (bs, none))
    (hrand : w.randInt (1 <<< 16) = .ok r) (hr : r < 1 <<< 16) :
    uint16 (Int64 r) = r ∧ r < 65536
    ∧ (∃ rest, (runNode w c).2 = (newHost w c.noTor bs r).2 ++ rest)
    ∧ (∀ err, (newHost w c.noTor bs r).1.2 = some err →
        runNode w c = (Outcome.returned (some err), (newHost w c.noTor bs r).2))
    ∧ (∀ addr, c.noTor = true → w.NewMultiaddr (listenAddrString r) = .ok addr →
        (runNode w c).2.head? = some (Event.New [Libp2pOption.ListenAddrs [addr]])) := by
  have hr2 : r < 65536 := by simpa [Nat.shiftLeft_eq] using hr
  have hport := uint16_Int64_small r hr2
  have hrand2 : w.randInt 65536 = .ok r := by simpa using hrand
  have hpre : ∃ rest, (runNode w c).2 = (newHost w c.noTor bs r).2 ++ rest := by
    rcases hn : newHost w c.noTor bs r with ⟨⟨_ | t, _ | e⟩, tr⟩
    · exact ⟨[], by simp [runNode, hparse, hrand2, hport, hn]⟩
    · exact ⟨[], by simp [runNode, hparse, hrand2, hport, hn]⟩
    · rcases hbs : t.bootstrap with ⟨_ | e, tb⟩
      · cases hi : w.interrupt
        · exact ⟨_, by simp [runNode, hparse, hrand2, hport, hn, hbs, hi]; rfl⟩
        · exact ⟨_, by simp [runNode, hparse, hrand2, hport, hn, hbs, hi]; rfl⟩
      · exact ⟨_, by simp [runNode, hparse, hrand2, hport, hn, hbs]; rfl⟩
    · exact ⟨[], by simp [runNode, hparse, hrand2, hport, hn]⟩
  have herr : ∀ err, (newHost w c.noTor bs r).1.2 = some err →
      runNode w c = (Outcome.returned (some err), (newHost w c.noTor bs r).2) := by
    intro err he
    rcases hn : newHost w c.noTor bs r with ⟨⟨t, e⟩, tr⟩
    rw [hn] at he
    simp only at he
    subst he
    simp [runNode, hparse, hrand2, hport, hn]
  refine ⟨hport, hr2, hpre, herr, ?_⟩
  intro addr hdirect hm
  obtain ⟨rest, hrest⟩ := hpre
  have hq := newHost_direct_trace w bs r addr hm
  rw [hrest, hdirect, hq]
  rfl

/-! ## Advertised addresses -/

theorem elems_none {α : Type} : Slice.elems (none : Slice α) = [] := rfl

theorem elems_append {α : Type} (s : Slice α) (x : α) :
    (append s x).elems = s.elems ++ [x] := rfl

theorem toOption_ok (m : Multiaddr) :
    (Except.ok m : Except Error Multiaddr).toOption = some m := rfl

theorem toOption_error (e : Error) :
    (Except.error e : Except Error Multiaddr).toOption = none := rfl

theorem multiaddrsLoop_elems (w : World) (h : thost) (l : List Multiaddr)
    (acc : Slice Multiaddr) :
    (multiaddrsLoop w h l acc).elems
      = acc.elems ++ l.filterMap (fun a => (w.NewMultiaddr (p2pAddrString a h.h.ID)).toOption) := by
  induction l generalizing acc with
  | nil => simp [multiaddrsLoop]
  | cons a rest ih =>
    cases hm : w.NewMultiaddr (p2pAddrString a h.h.ID) with
    | error e =>
      simp only [multiaddrsLoop, hm, ih, List.filterMap_cons, toOption_error]
    | ok m =>
      simp only [multiaddrsLoop, hm, ih, List.filterMap_cons, toOption_ok, elems_append,
        List.append_assoc, List.singleton_append]

theorem AddressesLoop_elems (l : List Multiaddr) (acc : Slice String) :
    (AddressesLoop l acc).elems = acc.elems ++ l.map Multiaddr.String := by
  induction l generalizing acc with
  | nil => simp [AddressesLoop]
  | cons a rest ih =>
    simp only [AddressesLoop, ih, elems_append, List.map_cons, List.append_assoc,
      List.singleton_append]

theorem filterMap_all_ok (w : World) (id : PeerID) (l : List Multiaddr)
    (hall : ∀ a ∈ l, w.NewMultiaddr (p2pAddrString a id) = .ok ⟨p2pAddrString a id⟩) :
    (l.filterMap (fun a => (w.NewMultiaddr (p2pAddrString a id)).toOption)).map
        Multiaddr.String
      = l.map (fun a => p2pAddrString a id) := by
  induction l with
  | nil => rfl
  | cons a rest ih =>
    have ha := hall a (by simp)
    have hrest : ∀ b ∈ rest, w.NewMultiaddr (p2pAddrString b id) = .ok ⟨p2pAddrString b id⟩ :=
      fun b hb => hall b (List.mem_cons_of_mem _ hb)
    simp only [List.filterMap_cons, ha, toOption_ok, List.map_cons, ih hrest, Multiaddr.String]

theorem Addresses_elems (w : World) (h : thost) :
    (h.Addresses w).elems
      = (h.h.Addrs.filterMap
          (fun a => (w.NewMultiaddr (p2pAddrString a h.h.ID)).toOption)).map
            Multiaddr.String := by
  simp only [thost.Addresses, thost.multiaddrs, AddressesLoop_elems, multiaddrsLoop_elems,
    elems_none, List.nil_append]

theorem composesCleanly_spec (w : World) (h : Host) (hlib : composesCleanly w h = true) :
    ∀ a ∈ h.Addrs, w.NewMultiaddr (p2pAddrString a h.ID) = .ok ⟨p2pAddrString a h.ID⟩ := by
  intro a ha
  have := (List.all_eq_true.mp hlib) a ha
  cases hm : w.NewMultiaddr (p2pAddrString a h.ID) with
  | error e => simp [hm] at this
  | ok m =>
    simp only [hm, decide_eq_true_eq, Multiaddr.String] at this
    cases m
    simp only at this
    rw [this]

/-- C5: for every host with bound addresses `a_1..a_n` (in the enumeration
order of the stack) and identity `id`, the compositions being valid multiaddr
texts for the library, `thost.Addresses` returns exactly `n` strings, the
`i`-th being `a_i` followed by "/p2p/" and `id`: one per bound address, in the
order of the enumeration. -/
theorem Addresses_compose (w : World) (h : thost)
    (hlib : composesCleanly w h.h = true) :
    (h.Addresses w).elems = h.h.Addrs.map (fun a => a.String ++ "/p2p/" ++ h.h.ID)
    ∧ len (h.Addresses w) = h.h.Addrs.length
    ∧ (∀ i (hi : i < h.h.Addrs.length),
        (h.Addresses w).elems.get? i
          = some ((h.h.Addrs.get ⟨i, hi⟩).String ++ "/p2p/" ++ h.h.ID)) := by
  have hmap := filterMap_all_ok w h.h.ID h.h.Addrs (composesCleanly_spec w h.h hlib)
  have key : (h.Addresses w).elems
      = h.h.Addrs.map (fun a => a.String ++ "/p2p/" ++ h.h.ID) := by
    rw [Addresses_elems, hmap]; rfl
  refine ⟨key, by simp [len, key], ?_⟩
  intro i hi
  rw [key]
  simp [List.getElem?_eq_getElem hi]

/-- C5 (witness): the flaky host has two bound addresses, both compositions
parse, and `Addresses` returns the two composed strings in order. -/
theorem Addresses_compose_witness :
    (flakyThost.Addresses (sampleWorld flakyHost 4001)).elems
      = ["/ip4/127.0.0.1/tcp/4001/p2p/QmSelf", "/ip4/192.168.1.5/tcp/4001/p2p/QmSelf"]
    ∧ len (flakyThost.Addresses (sampleWorld flakyHost 4001)) = 2 :=
  ⟨(Addresses_compose (sampleWorld flakyHost 4001) flakyThost (by decide)).1,
   (Addresses_compose (sampleWorld flakyHost 4001) flakyThost (by decide)).2.1⟩

/-! ## The run procedure -/

theorem bootstrapLoop_quiet (h : thost) (l : List AddrInfo) (n failed : Nat)
    (tr : List Event) (htr : Event.SignalNotify ∉ tr) :
    Event.SignalNotify ∉ (bootstrapLoop h l n failed tr).2 := by
  induction l generalizing n failed tr with
  | nil => simpa [bootstrapLoop] using htr
  | cons a rest ih =>
    simp only [bootstrapLoop]
    cases hc : h.h.Connect n h.ctx a with
    | none => exact ih _ _ _ (by simp [htr])
    | some e => exact ih _ _ _ (by simp [htr])

theorem bootstrap_quiet (h : thost) : Event.SignalNotify ∉ h.bootstrap.2 := by
  simp only [thost.bootstrap]
  split <;> exact bootstrapLoop_quiet h _ 0 0 [] (by simp)

/-- C4: when the bootnodes text is empty, the parsing step of `runNode`
yields the nil slice (length zero) and no error whatever the parser would
answer, although splitting the empty text gives one empty entry; the host
`newHost` builds from it has zero bootnodes, and `runNode` makes no `Connect`
attempt. -/
theorem parseBootnodes_empty (w : World) (noTor : Bool) :
    parseBootnodes w ⟨noTor, ""⟩ = (none, none)
    ∧ len (parseBootnodes w ⟨noTor, ""⟩).1 = 0
    ∧ stringsSplit "" ',' = some [""]
    ∧ (∀ port t e tr,
        newHost w noTor (parseBootnodes w ⟨noTor, ""⟩).1 port = ((some t, e), tr) →
        len t.bootnodes = 0)
    ∧ attempted (runNode w ⟨noTor, ""⟩).2 = [] := by
  have hp : parseBootnodes w ⟨noTor, ""⟩ = (none, none) := by simp [parseBootnodes]
  refine ⟨hp, by rw [hp]; rfl, rfl, ?_, ?_⟩
  · intro port t e tr hres
    rw [newHost_keeps_bootnodes w noTor _ port t e tr hres, hp]; rfl
  · simp only [runNode, hp]
    cases hr : w.randInt (1 <<< 16) with
    | error e => simp [attempted]
    | ok r =>
      simp only []
      have hq := (newHost_trace_quiet w noTor none (uint16 (Int64 r))).1
      rcases hn : newHost w noTor none (uint16 (Int64 r)) with ⟨⟨_ | t, _ | e⟩, tr⟩
      · rw [hn] at hq; simpa using hq
      · rw [hn] at hq; simpa using hq
      · rw [hn] at hq
        have hb : t.bootnodes = none := newHost_keeps_bootnodes w noTor none _ t none tr hn
        have ha := bootstrap_attempted t
        rw [hb] at ha
        simp only []
        rcases hbs : t.bootstrap with ⟨_ | e, tb⟩
        · rw [hbs] at ha
          cases w.interrupt <;>
            simp [attempted_append, attempted, hq, elems_none] at ha ⊢ <;> exact ha
        · rw [hbs] at ha
          simp [attempted_append, attempted, hq, elems_none] at ha ⊢
          exact ha
      · rw [hn] at hq; simpa using hq

/-- C6 (amended): once the host is built, `runNode` reaches the Running state
(it registers for the interrupt signal and waits) when `thost.bootstrap`
returns nil; when `thost.bootstrap` returns an error, `runNode` returns that
error without reaching the Running state, and `main` panics with it. -/
theorem runNode_after_bootstrap (w : World) (c : CliContext) (bs : Slice AddrInfo)
    (r : Nat) (h : thost) (tr : List Event)
    (hparse : parseBootnodes w c = (bs, none))
    (hrand : w.randInt (1 <<< 16) = .ok r)
    (hhost : newHost w c.noTor bs (uint16 (Int64 r)) = ((some h, none), tr)) :
    (h.bootstrap.1 = none →
      reachedRunning (runNode w c).2 = true
      ∧ (runNode w c).1 = (if w.interrupt then Outcome.returned none else Outcome.blocked))
    ∧ (∀ e, h.bootstrap.1 = some e →
      (runNode w c).1 = Outcome.returned (some e)
      ∧ reachedRunning (runNode w c).2 = false
      ∧ (main w c).1 = ProcessEnd.panicked e) := by
  have hq : Event.SignalNotify ∉ tr := by
    have := (newHost_trace_quiet w c.noTor bs (uint16 (Int64 r))).2
    rw [hhost] at this
    simpa [reachedRunning] using this
  have hb := bootstrap_quiet h
  have hrand2 : w.randInt 65536 = .ok r := by simpa using hrand
  rcases hbs : h.bootstrap with ⟨_ | e, tb⟩
  · rw [hbs] at hb
    refine ⟨fun _ => ?_, fun e he => by simp at he⟩
    cases hi : w.interrupt <;>
      simp [runNode, hparse, hrand2, hhost, hbs, hi, reachedRunning]
  · rw [hbs] at hb
    refine ⟨fun he => by simp at he, fun e2 he => ?_⟩
    simp only [Option.some.injEq] at he
    subst he
    have hrun : runNode w c
        = (Outcome.returned (some e), tr ++ [Event.PrintAddresses (h.Addresses w)] ++ tb) := by
      simp [runNode, hparse, hrand2, hhost, hbs]
    refine ⟨by rw [hrun], ?_, by simp [main, hrun]⟩
    rw [hrun]
    simp only [reachedRunning, List.mem_append, List.mem_singleton, decide_eq_false_iff_not]
    simp at hb
    simp [hq, hb]

/-- C6 (counterexample): with one bootnode that cannot be reached, `runNode`
returns the error of `thost.bootstrap` without reaching the Running state, and
`main` panics. -/
theorem runNode_bootstrap_failure_is_fatal :
    (runNode (sampleWorld deafHost 4001) ⟨true, "/ip4/10.0.0.1/tcp/4001/p2p/QmPeerA"⟩).1
      = Outcome.returned (some "failed to bootstrap")
    ∧ reachedRunning
        (runNode (sampleWorld deafHost 4001) ⟨true, "/ip4/10.0.0.1/tcp/4001/p2p/QmPeerA"⟩).2
      = false
    ∧ (main (sampleWorld deafHost 4001) ⟨true, "/ip4/10.0.0.1/tcp/4001/p2p/QmPeerA"⟩).1
      = ProcessEnd.panicked "failed to bootstrap" := by
  decide

/-! ## Instances on the sample hosts -/

/-- C1 (witness): the deaf host with one bootnode fails to bootstrap; the
flaky host, whose second attempt succeeds, does not. -/
theorem bootstrap_error_iff_witness :
    deafThost.bootstrap.1 ≠ none ∧ flakyThost.bootstrap.1 = none :=
  ⟨(bootstrap_error_iff deafThost).1.mpr ⟨by decide, by decide⟩,
   (bootstrap_error_iff flakyThost).2.2.2 1 (by decide) (by decide)⟩

/-- C3 (witness): the second of three peer strings is rejected, and the batch
returns nil with an error; three accepted strings give no error. -/
theorem stringsToAddrInfos_atomic_witness :
    ((stringsToAddrInfos (sampleWorld deafHost 4001) (some ["/a", "b", "/c"])).1 = none
      ∧ (stringsToAddrInfos (sampleWorld deafHost 4001) (some ["/a", "b", "/c"])).2 ≠ none)
    ∧ (stringsToAddrInfos (sampleWorld deafHost 4001) (some ["/a", "/b", "/c"])).2 = none :=
  ⟨(stringsToAddrInfos_atomic (sampleWorld deafHost 4001) (some ["/a", "b", "/c"])).1
      ⟨"b", by decide, by decide⟩,
   (stringsToAddrInfos_atomic (sampleWorld deafHost 4001) (some ["/a", "/b", "/c"])).2
      (by decide)⟩

/-- C10 (witness): two accepted strings give the two parsed peers in order;
with the second and third of three strings rejected, the error is that of the
second. -/
theorem stringsToAddrInfos_map_witness :
    (stringsToAddrInfos (sampleWorld deafHost 4001) (some ["/a", "/b"])
        = (some [(stringToAddrInfo (sampleWorld deafHost 4001) "/a").1,
                 (stringToAddrInfo (sampleWorld deafHost 4001) "/b").1], none))
    ∧ (stringsToAddrInfos (sampleWorld deafHost 4001) (some ["/a", "b", "/c/p2p/"])).2
        = some "must begin with /" :=
  ⟨((stringsToAddrInfos_map (sampleWorld deafHost 4001) (some ["/a", "/b"])).1
      (by decide)).1,
   (stringsToAddrInfos_map (sampleWorld deafHost 4001) (some ["/a", "b", "/c/p2p/"])).2
      ["/a"] "b" ["/c/p2p/"] "must begin with /" rfl (by decide) (by decide)⟩

/-- C4 (witness): in the sample world the host built after an empty bootnodes
text has zero bootnodes. -/
theorem parseBootnodes_empty_witness :
    len ({ ctx := Ctx.Background, h := deafHost,
           bootnodes := (parseBootnodes (sampleWorld deafHost 4001) ⟨true, ""⟩).1 } : thost).bootnodes
      = 0 :=
  (parseBootnodes_empty (sampleWorld deafHost 4001) true).2.2.2.1 4001
    { ctx := Ctx.Background, h := deafHost,
      bootnodes := (parseBootnodes (sampleWorld deafHost 4001) ⟨true, ""⟩).1 }
    none [Event.New [Libp2pOption.ListenAddrs [⟨"/ip4/0.0.0.0/tcp/4001"⟩]]] rfl

/-- C6 (witness): two bootnodes, the first unreachable and the second
reachable: `runNode` reaches the Running state and, interrupted, returns nil. -/
theorem runNode_after_bootstrap_witness :
    reachedRunning
        (runNode (sampleWorld flakyHost 4001)
          ⟨true, "/ip4/10.0.0.1/tcp/4001/p2p/QmPeerA,/ip4/10.0.0.2/tcp/4001/p2p/QmPeerB"⟩).2
      = true
    ∧ (runNode (sampleWorld flakyHost 4001)
          ⟨true, "/ip4/10.0.0.1/tcp/4001/p2p/QmPeerA,/ip4/10.0.0.2/tcp/4001/p2p/QmPeerB"⟩).1
      = (if (sampleWorld flakyHost 4001).interrupt then Outcome.returned none
         else Outcome.blocked) :=
  (runNode_after_bootstrap (sampleWorld flakyHost 4001)
    ⟨true, "/ip4/10.0.0.1/tcp/4001/p2p/QmPeerA,/ip4/10.0.0.2/tcp/4001/p2p/QmPeerB"⟩
    (some [{ ID := "QmPeer", Addrs := some [⟨"/ip4/10.0.0.1/tcp/4001/p2p/QmPeerA"⟩] },
           { ID := "QmPeer", Addrs := some [⟨"/ip4/10.0.0.2/tcp/4001/p2p/QmPeerB"⟩] }])
    4001
    { ctx := Ctx.Background, h := flakyHost,
      bootnodes :=
        some [{ ID := "QmPeer", Addrs := some [⟨"/ip4/10.0.0.1/tcp/4001/p2p/QmPeerA"⟩] },
              { ID := "QmPeer", Addrs := some [⟨"/ip4/10.0.0.2/tcp/4001/p2p/QmPeerB"⟩] }] }
    [Event.New [Libp2pOption.ListenAddrs [⟨"/ip4/0.0.0.0/tcp/4001"⟩]]]
    (by decide) rfl rfl).1 (by decide)

/-- C7 (counterexample): 65535 is below the bound `1 << 16` of the random
source, and the port chosen from it is 65535, outside `[0, 65535)`; in Direct
mode the stack is then asked to listen on `/ip4/0.0.0.0/tcp/65535`. -/
theorem listen_port_can_be_65535 :
    65535 < 1 <<< 16
    ∧ uint16 (Int64 65535) = 65535
    ∧ ¬ (uint16 (Int64 65535) < 65535)
    ∧ (runNode (sampleWorld deafHost 65535) ⟨true, ""⟩).2.head?
        = some (Event.New [Libp2pOption.ListenAddrs [⟨"/ip4/0.0.0.0/tcp/65535"⟩]]) := by
  decide

/-- C7 (witness): the random value 4001 gives the port 4001, and in Direct
mode `runNode` asks the stack to listen on `/ip4/0.0.0.0/tcp/4001`. -/
theorem listen_port_range_witness :
    uint16 (Int64 4001) = 4001 ∧ 4001 < 65536
    ∧ (runNode (sampleWorld deafHost 4001) ⟨true, ""⟩).2.head?
        = some (Event.New [Libp2pOption.ListenAddrs [⟨"/ip4/0.0.0.0/tcp/4001"⟩]]) :=
  ⟨(listen_port_range (sampleWorld deafHost 4001) ⟨true, ""⟩ none 4001
      (by decide) rfl (by decide)).1,
   (listen_port_range (sampleWorld deafHost 4001) ⟨true, ""⟩ none 4001
      (by decide) rfl (by decide)).2.1,
   (listen_port_range (sampleWorld deafHost 4001) ⟨true, ""⟩ none 4001
      (by decide) rfl (by decide)).2.2.2.2 ⟨"/ip4/0.0.0.0/tcp/4001"⟩ rfl rfl⟩

/-- C8 (counterexample): in Anonymized mode on port 4001 the stack
constructor is called with the Tor transport alone; the listen address
`/ip4/0.0.0.0/tcp/4001` is not among its options. -/
theorem tor_mode_passes_no_listen_address :
    (newHost (sampleWorld deafHost 4001) false none 4001).2
      = [Event.NewBuilder [TorConfig.EnableEmbeded],
         Event.New [Libp2pOption.Transport ⟨0⟩]]
    ∧ listensOnTcp (newHost (sampleWorld deafHost 4001) false none 4001).2 = false := by
  decide

/-- C8 (witness): on port 4001 the Direct stack gets the single listen address
`/ip4/0.0.0.0/tcp/4001`, the Anonymized stack none. -/
theorem newHost_listen_options_witness :
    listenAddrString 4001 = "/ip4/0.0.0.0/tcp/" ++ toString 4001
    ∧ (newHost (sampleWorld deafHost 4001) true none 4001).2
        = [Event.New [Libp2pOption.ListenAddrs [⟨"/ip4/0.0.0.0/tcp/4001"⟩]]]
    ∧ listensOnTcp (newHost (sampleWorld deafHost 4001) true none 4001).2 = true
    ∧ listensOnTcp (newHost (sampleWorld deafHost 4001) false none 4001).2 = false :=
  newHost_listen_options (sampleWorld deafHost 4001) none 4001 ⟨"/ip4/0.0.0.0/tcp/4001"⟩ rfl

/-- C9 (witness): in the sample world on port 4001, the stack constructor is
called with the Tor transport of the builder obtained, and with nothing else. -/
theorem newHost_tor_exclusive_witness :
    ∃ b, (sampleWorld deafHost 4001).NewBuilder [TorConfig.EnableEmbeded] = .ok b
      ∧ [Libp2pOption.Transport ⟨0⟩] = [Libp2pOption.Transport b] :=
  (newHost_tor_exclusive (sampleWorld deafHost 4001) none 4001).2.1
    [Libp2pOption.Transport ⟨0⟩] (by decide)

end TorLibp2p
